import Mathlib

set_option maxHeartbeats 1000000
set_option maxRecDepth 100000

/-
Shallow embedding of the Disobey 2026 badge games:
src/examples/snake.rs and src/examples/logo_breakout.rs.
Machine integers are embedded as Int (i32) and Nat with explicit
reduction modulo 2 ^ 16 or 2 ^ 32 where the source type is u16 or u32.
The food-respawn loop of snake.rs can in principle run forever, so it is
embedded with an explicit fuel parameter and an Option result; a None
result means the loop did not finish within the given fuel.
-/

/-- Embedding of format_u16 from snake.rs lines 301-317 and
logo_breakout.rs lines 449-465: the list of digits of n written
least-significant first, exactly as the source while-loop produces them
into its tmp buffer. -/
def digitsRev : Nat → List Nat
  | 0 => []
  | n + 1 => (48 + (n + 1) % 10) :: digitsRev ((n + 1) / 10)
decreasing_by exact Nat.div_lt_self (Nat.succ_pos n) (by decide)

/-- The byte sequence format_u16 places in its output buffer: the single
byte 48 for zero, otherwise the digit bytes most-significant first. -/
def format_u16 (n : Nat) : List Nat :=
  if n = 0 then [48] else (digitsRev n).reverse

namespace Snake

/-- GRID_W = W / GRID_SIZE = 320 / 10. -/
def GRID_W : Int := 32

/-- GRID_H = H / GRID_SIZE = 170 / 10. -/
def GRID_H : Int := 17

structure Pos where
  x : Int
  y : Int
deriving DecidableEq

inductive Direction where
  | Up
  | Down
  | Left
  | Right
deriving DecidableEq

/-- Direction::is_opposite from snake.rs lines 75-86. -/
def Direction.is_opposite : Direction → Direction → Bool
  | .Up, .Down => true
  | .Down, .Up => true
  | .Left, .Right => true
  | .Right, .Left => true
  | _, _ => false

/-- One xorshift step of the Rng from snake.rs lines 49-59; the state is
a u32, kept below 2 ^ 32 by explicit reduction. -/
def rngNext (s : Nat) : Nat :=
  let s1 := (s ^^^ (s <<< 13)) % 4294967296
  let s2 := s1 ^^^ (s1 >>> 17)
  (s2 ^^^ (s2 <<< 5)) % 4294967296

/-- Rng::range: returns the drawn value and the advanced state. -/
def rngRange (s m : Nat) : Nat × Nat :=
  let n := rngNext s
  (n % m, n)

structure Game where
  snake : List Pos
  direction : Direction
  next_direction : Direction
  food : Pos
  score : Nat
  game_over : Bool
  rng : Nat
deriving DecidableEq

/-- Game::spawn_food from snake.rs lines 124-136, with fuel bounding the
number of resampling iterations. Returns the new food position and rng
state, or none when fuel runs out. -/
def spawn_food : Nat → Nat → List Pos → Option (Pos × Nat)
  | 0, _, _ => none
  | fuel + 1, s, body =>
    let rx := rngRange s 32
    let ry := rngRange rx.2 17
    let pos : Pos := ⟨(rx.1 : Int), (ry.1 : Int)⟩
    if body.any (fun q => decide (q = pos)) then
      spawn_food fuel ry.2 body
    else
      some (pos, ry.2)

/-- The single-cell move of the head in a given direction,
snake.rs lines 150-167. -/
def stepPos (p : Pos) : Direction → Pos
  | .Up => ⟨p.x, p.y - 1⟩
  | .Down => ⟨p.x, p.y + 1⟩
  | .Left => ⟨p.x - 1, p.y⟩
  | .Right => ⟨p.x + 1, p.y⟩

/-- Lines 143-146 of Game::tick: the direction actually taken this tick,
namely the buffered direction unless it reverses the current one. -/
def nextDir (g : Game) : Direction :=
  if g.next_direction.is_opposite g.direction then g.direction else g.next_direction

/-- Game::tick from snake.rs lines 138-192. The source indexes snake[0],
which panics on an empty body; that panic is embedded as none, as is
fuel exhaustion inside spawn_food. -/
def tick (fuel : Nat) (g : Game) : Option Game :=
  if g.game_over then some g else
  let dir := nextDir g
  match g.snake with
  | [] => none
  | head :: _ =>
    let new_head := stepPos head dir
    if new_head.x < 0 ∨ new_head.x ≥ GRID_W ∨ new_head.y < 0 ∨ new_head.y ≥ GRID_H then
      some { g with direction := dir, game_over := true }
    else if g.snake.any (fun q => decide (q = new_head)) then
      some { g with direction := dir, game_over := true }
    else
      let snake1 := new_head :: g.snake
      if new_head = g.food then
        match spawn_food fuel g.rng snake1 with
        | none => none
        | some ps =>
          some { g with
                 direction := dir
                 snake := snake1
                 food := ps.1
                 score := (g.score + 1) % 65536
                 rng := ps.2 }
      else
        some { g with direction := dir, snake := snake1.dropLast }

/-- The initial 4-segment body built by Game::new, snake.rs lines 110-118:
head at (GRID_W / 2, GRID_H / 2), extending leftwards. -/
def initSnake : List Pos := [⟨16, 8⟩, ⟨15, 8⟩, ⟨14, 8⟩, ⟨13, 8⟩]

/-- Game::new from snake.rs lines 99-122, including the initial
spawn_food call with seed 0xDEADBEEF. -/
def newGame (fuel : Nat) : Option Game :=
  match spawn_food fuel 0xDEADBEEF initSnake with
  | none => none
  | some ps =>
    some { snake := initSnake
           direction := .Right
           next_direction := .Right
           food := ps.1
           score := 0
           game_over := false
           rng := ps.2 }

/-- States reachable in the snake game loop of snake.rs lines 352-415:
a fresh game, a game advanced by one tick, or a game whose buffered
direction was overwritten by d-pad polling. -/
inductive Reach : Game → Prop where
  | init : ∀ fuel g, newGame fuel = some g → Reach g
  | step : ∀ fuel g g', Reach g → tick fuel g = some g' → Reach g'
  | dirSet : ∀ g d, Reach g → Reach { g with next_direction := d }

/-- The loop of update_leds from snake.rs lines 339-346, iterated for
i = 0, ..., k - 1: LED bars are embedded as index functions, and the bar
store left[i] = color, right[i - BAR_COUNT / 2] = color as pointwise
function update. bc is the BAR_COUNT constant of the badge library,
which is outside this repository and therefore kept as a parameter. -/
def fill_bars (bc : Nat) : Nat → ((Nat → Bool) × (Nat → Bool)) → ((Nat → Bool) × (Nat → Bool))
  | 0, lr => lr
  | i + 1, lr =>
    let lr2 := fill_bars bc i lr
    if i < bc / 2 then
      ((fun j => if j = i then true else lr2.1 j), lr2.2)
    else
      (lr2.1, fun j => if j = i - bc / 2 then true else lr2.2 j)

/-- The bar patterns computed by update_leds (snake.rs lines 330-350) in
the alive branch: lit = min score BAR_COUNT LEDs, placed by fill_bars
over initially dark bars. -/
def update_leds_bars (bc score : Nat) : (Nat → Bool) × (Nat → Bool) :=
  fill_bars bc (min score bc) ((fun _ => false), (fun _ => false))

/-- Number of lit LEDs among the first bc positions of a bar. -/
def litCount (bc : Nat) (f : Nat → Bool) : Nat := ((List.range bc).filter f).length

/-- A concrete alive state whose head sits against the right wall while
moving right; used to test the head-advance behavior. -/
def cWall : Game :=
  { snake := [⟨31, 8⟩, ⟨30, 8⟩, ⟨29, 8⟩, ⟨28, 8⟩]
    direction := .Right
    next_direction := .Right
    food := ⟨0, 0⟩
    score := 0
    game_over := false
    rng := 1 }

/-- A concrete alive mid-board state with a buffered upward turn. -/
def cMid : Game :=
  { snake := [⟨5, 8⟩, ⟨4, 8⟩]
    direction := .Right
    next_direction := .Up
    food := ⟨0, 0⟩
    score := 0
    game_over := false
    rng := 1 }

/-- The state reached from cMid by one tick. -/
def cMidRes : Game := (tick 1 cMid).getD cMid

/-- A concrete alive state about to eat the food one cell to the right. -/
def cEat : Game :=
  { snake := [⟨5, 8⟩, ⟨4, 8⟩, ⟨3, 8⟩]
    direction := .Right
    next_direction := .Right
    food := ⟨6, 8⟩
    score := 0
    game_over := false
    rng := 12345 }

/-- The state reached from cEat by one tick. -/
def cEatRes : Game := (tick 20 cEat).getD cEat

/-- The initial game produced by Game::new with spawn fuel 10. -/
def sg0 : Game := (newGame 10).getD cMid

end Snake

namespace Breakout

/-- CELL_X from logo_breakout.rs line 43. -/
def cellX (c : Nat) : Int :=
  [0, 15, 31, 46, 62, 77, 93, 108, 123, 139, 154, 170, 185, 200, 216, 231, 247, 262, 278,
   293, 308].getD c 0

/-- CELL_W from logo_breakout.rs line 44. -/
def cellW (c : Nat) : Int :=
  [12, 12, 11, 12, 11, 12, 11, 12, 12, 11, 12, 11, 12, 12, 11, 12, 11, 12, 11, 12,
   12].getD c 0

/-- CELL_Y from logo_breakout.rs line 45. -/
def cellY (r : Nat) : Int := [0, 15, 31, 46, 61].getD r 0

/-- CELL_H from logo_breakout.rs line 46. -/
def cellH (r : Nat) : Int := [12, 12, 11, 12, 12].getD r 0

/-- ERASE_X from logo_breakout.rs line 49. -/
def eraseX (c : Nat) : Int :=
  [0, 13, 29, 44, 60, 75, 91, 106, 121, 137, 152, 168, 183, 198, 214, 229, 245, 260, 276,
   291, 306].getD c 0

/-- ERASE_W from logo_breakout.rs line 50. -/
def eraseW (c : Nat) : Int :=
  [13, 16, 15, 16, 15, 16, 15, 15, 16, 15, 16, 15, 15, 16, 15, 16, 15, 16, 15, 15,
   14].getD c 0

/-- ERASE_Y from logo_breakout.rs line 51. -/
def eraseY (r : Nat) : Int := [0, 13, 29, 44, 59].getD r 0

/-- ERASE_H from logo_breakout.rs line 52. -/
def eraseH (r : Nat) : Int := [13, 16, 15, 15, 14].getD r 0

/-- The i32 absolute value used by the source. -/
def absI (v : Int) : Int := (v.natAbs : Int)

structure Game where
  paddle_x : Int
  ball_x : Int
  ball_y : Int
  ball_dx : Int
  ball_dy : Int
  bricks : Nat → Nat → Bool
  score : Nat
  lives : Nat
  launched : Bool
  game_over : Bool
  led_flash : Nat

/-- Game::new from logo_breakout.rs lines 127-141: W / 2 - PADDLE_W / 2 = 140,
W / 2 = 160, PADDLE_Y - BALL_SIZE - 1 = 141. -/
def new : Game :=
  { paddle_x := 140
    ball_x := 160
    ball_y := 141
    ball_dx := 2
    ball_dy := -2
    bricks := fun _ _ => true
    score := 0
    lives := 3
    launched := false
    game_over := false
    led_flash := 0 }

/-- Game::reset_ball from logo_breakout.rs lines 143-149. -/
def reset_ball (g : Game) : Game :=
  { g with
    ball_x := g.paddle_x + 20
    ball_y := 141
    ball_dx := 2
    ball_dy := -2
    launched := false }

/-- The row-major brick index order of the nested loops in Game::tick
(logo_breakout.rs lines 220-221): row 0 first, columns left to right. -/
def scanIdx : List (Nat × Nat) :=
  (List.range 5).flatMap (fun r => (List.range 21).map (fun c => (r, c)))

/-- Game::bricks_remaining from logo_breakout.rs lines 151-161. -/
def bricks_remaining (g : Game) : Nat :=
  (scanIdx.filter (fun p => g.bricks p.1 p.2)).length

/-- Lines 168-170 of Game::tick: decrement the LED flash countdown. -/
def ledPhase (g : Game) : Game :=
  if 0 < g.led_flash then { g with led_flash := g.led_flash - 1 } else g

/-- Lines 172-173 of Game::tick: integrate the ball position. -/
def movePhase (g : Game) : Game :=
  { g with ball_x := g.ball_x + g.ball_dx, ball_y := g.ball_y + g.ball_dy }

/-- Lines 176-179 of Game::tick: left wall clamp. -/
def wallLeft (g : Game) : Game :=
  if g.ball_x ≤ 0 then { g with ball_x := 0, ball_dx := absI g.ball_dx } else g

/-- Lines 180-183 of Game::tick: right wall clamp, W - BALL_SIZE = 316. -/
def wallRight (g : Game) : Game :=
  if g.ball_x + 4 ≥ 320 then { g with ball_x := 316, ball_dx := -absI g.ball_dx } else g

/-- Lines 184-187 of Game::tick: top wall clamp. -/
def wallTop (g : Game) : Game :=
  if g.ball_y ≤ 0 then { g with ball_y := 0, ball_dy := absI g.ball_dy } else g

/-- Lines 175-187 of Game::tick: the three sequential wall clamps,
with W = 320, H = 170, BALL_SIZE = 4. -/
def wallPhase (g : Game) : Game := wallTop (wallRight (wallLeft g))

/-- Lines 190-198 of Game::tick: the ball fell below the paddle.
lives is a u8 updated by saturating_sub, embedded as Nat subtraction. -/
def bottomPhase (g : Game) : Game :=
  let l2 := g.lives - 1
  if l2 = 0 then { g with lives := l2, game_over := true }
  else reset_ball { g with lives := l2 }

/-- Lines 200-217 of Game::tick: paddle collision and deflection, with
PADDLE_Y = 146, PADDLE_H = 6, PADDLE_W = 40, third = 13. -/
def paddlePhase (g : Game) : Game :=
  if 0 < g.ball_dy ∧ g.ball_y + 4 ≥ 146 ∧ g.ball_y + 4 ≤ 152 ∧
      g.ball_x + 4 > g.paddle_x ∧ g.ball_x < g.paddle_x + 40 then
    let g1 := { g with ball_dy := -absI g.ball_dy }
    let hit_pos := g.ball_x + 2 - g.paddle_x
    if hit_pos < 13 then { g1 with ball_dx := -3 }
    else if hit_pos > 26 then { g1 with ball_dx := 3 }
    else { g1 with ball_dx := if 0 < g.ball_dx then 2 else -2 }
  else g

/-- The ball-brick overlap test of lines 228-232 of Game::tick. -/
def overlapB (g : Game) (r c : Nat) : Bool :=
  decide (g.ball_x + 4 > cellX c) && decide (g.ball_x < cellX c + cellW c) &&
  decide (g.ball_y + 4 > cellY r) && decide (g.ball_y < cellY r + cellH r)

/-- Lines 233-255 of Game::tick: the effect of hitting brick (r, c).
The score is a u16, so the increment is reduced modulo 2 ^ 16. -/
def applyHit (r c : Nat) (g : Game) : Game :=
  let g1 := { g with
    bricks := fun r2 c2 => if r2 = r ∧ c2 = c then false else g.bricks r2 c2
    score := (g.score + (5 - r)) % 65536
    led_flash := 6 }
  let dxa := (g.ball_x + 2 - (cellX c + cellW c / 2)).natAbs
  let dya := (g.ball_y + 2 - (cellY r + cellH r / 2)).natAbs
  let g2 :=
    if dxa > dya then { g1 with ball_dx := -g1.ball_dx }
    else { g1 with ball_dy := -g1.ball_dy }
  if bricks_remaining g2 = 0 then { g2 with game_over := true } else g2

/-- The brick scan of lines 219-258 of Game::tick: walk the bricks in
row-major order, resolve the first live overlapping brick and stop. -/
def brickPhase : List (Nat × Nat) → Game → Game
  | [], g => g
  | (r, c) :: rest, g =>
    if g.bricks r c && overlapB g r c then applyHit r c g
    else brickPhase rest g

/-- Game::tick from logo_breakout.rs lines 163-259. -/
def tick (g : Game) : Game :=
  if g.game_over || !g.launched then g
  else
    let g1 := wallPhase (movePhase (ledPhase g))
    if g1.ball_y + 4 ≥ 170 then bottomPhase g1
    else brickPhase scanIdx (paddlePhase g1)

/-- The left-button handler of the game loop, logo_breakout.rs
lines 532-537: PADDLE_SPEED = 6, clamp at 0, and while the ball is not
launched it follows the paddle center. -/
def moveLeft (g : Game) : Game :=
  let p := max (g.paddle_x - 6) 0
  { g with paddle_x := p, ball_x := if g.launched then g.ball_x else p + 20 }

/-- The right-button handler of the game loop, logo_breakout.rs
lines 538-543: clamp at W - PADDLE_W = 280. -/
def moveRight (g : Game) : Game :=
  let p := min (g.paddle_x + 6) 280
  { g with paddle_x := p, ball_x := if g.launched then g.ball_x else p + 20 }

/-- The A-button launch of lines 545-547. -/
def launch (g : Game) : Game :=
  if g.launched then g else { g with launched := true }

/-- States reachable in the breakout game loop of logo_breakout.rs
lines 510-587: a fresh game, then any interleaving of button handlers
and ticks. -/
inductive Reach : Game → Prop where
  | init : Reach new
  | step : ∀ g, Reach g → Reach (tick g)
  | left : ∀ g, Reach g → Reach (moveLeft g)
  | right : ∀ g, Reach g → Reach (moveRight g)
  | pressA : ∀ g, Reach g → Reach (launch g)

inductive GColor where
  | black
  | white
  | red
deriving DecidableEq

/-- The draw operations issued by the breakout renderer: filled
rectangles (origin, size, color) and the HUD score text. -/
inductive DrawOp where
  | rect : Int → Int → Int → Int → GColor → DrawOp
  | text : List Nat → Int → Int → DrawOp
deriving DecidableEq

/-- draw_hud from logo_breakout.rs lines 318-342: hud_y = H - 14 = 156,
score text at (4, 166), one 6 by 6 red box per life at
(W - 12 - i * 10, 158). -/
def draw_hud (score : Nat) (lives : Nat) : List DrawOp :=
  DrawOp.rect 0 156 320 14 GColor.black ::
  DrawOp.text (format_u16 score) 4 166 ::
  (List.range lives).map (fun i => DrawOp.rect (308 - 10 * (i : Int)) 158 6 6 GColor.red)

/-- PrevState from logo_breakout.rs lines 262-269. -/
structure PrevState where
  ball_x : Int
  ball_y : Int
  paddle_x : Int
  score : Nat
  lives : Nat
  bricks : Nat → Nat → Bool

/-- draw_frame from logo_breakout.rs lines 344-404, as the list of draw
operations it issues in order. -/
def draw_frame (g : Game) (prev : PrevState) : List DrawOp :=
  (DrawOp.rect prev.ball_x prev.ball_y 4 4 GColor.black ::
    (if prev.paddle_x ≠ g.paddle_x then [DrawOp.rect prev.paddle_x 146 40 6 GColor.black]
     else []))
  ++ scanIdx.filterMap (fun p =>
      if prev.bricks p.1 p.2 && !g.bricks p.1 p.2 then
        some (DrawOp.rect (eraseX p.2) (eraseY p.1) (eraseW p.2) (eraseH p.1) GColor.black)
      else none)
  ++ [DrawOp.rect g.paddle_x 146 40 6 GColor.white,
      DrawOp.rect g.ball_x g.ball_y 4 4 GColor.white]
  ++ (if prev.ball_y + 4 > 156 ∨ prev.score ≠ g.score ∨ prev.lives ≠ g.lives then
        draw_hud g.score g.lives
      else [])

/-- The snapshot of the game taken into PrevState by the game loop,
logo_breakout.rs lines 521-528 and 552-557. -/
def snap (g : Game) : PrevState :=
  { ball_x := g.ball_x
    ball_y := g.ball_y
    paddle_x := g.paddle_x
    score := g.score
    lives := g.lives
    bricks := g.bricks }

/-- A concrete launched state one tick away from hitting the bottom-row
brick of column 0 dead-center horizontally: after moving by (2, -2) the
ball is at (4, 58), its center x equals the brick center x of brick
(4, 0), and no earlier brick in scan order overlaps. -/
def gLow : Game :=
  { paddle_x := 140
    ball_x := 2
    ball_y := 60
    ball_dx := 2
    ball_dy := -2
    bricks := fun _ _ => true
    score := 0
    lives := 3
    launched := true
    game_over := false
    led_flash := 0 }

/-- Brick (r, c) is live and currently overlapped by the ball. -/
def hitAt (g : Game) (p : Nat × Nat) : Prop :=
  g.bricks p.1 p.2 = true ∧ overlapB g p.1 p.2 = true

/-- Strict row-major order on brick indices: earlier row, or same row and
earlier column. -/
def rmLt (p q : Nat × Nat) : Prop := p.1 < q.1 ∨ (p.1 = q.1 ∧ p.2 < q.2)

instance rmLtDec : DecidableRel rmLt := fun p q =>
  decidable_of_iff (p.1 < q.1 ∨ (p.1 = q.1 ∧ p.2 < q.2)) Iff.rfl

instance hitAtDec (g : Game) (p : Nat × Nat) : Decidable (hitAt g p) :=
  decidable_of_iff (g.bricks p.1 p.2 = true ∧ overlapB g p.1 p.2 = true) Iff.rfl

/-- Inductive invariant carrying the ball-bounds property: paddle in
range, ball inside the display, a ball strictly above the bottom row
while the game is running, and vertical speed of magnitude 2. -/
def Inv (g : Game) : Prop :=
  0 ≤ g.paddle_x ∧ g.paddle_x ≤ 280 ∧ 0 ≤ g.ball_x ∧ g.ball_x ≤ 316 ∧
  0 ≤ g.ball_y ∧ g.ball_y < 170 ∧ (g.game_over = false → g.ball_y ≤ 165) ∧
  (g.ball_dy = 2 ∨ g.ball_dy = -2)

end Breakout

/-
Theorems. First the shared decimal formatter, then the snake game,
then breakout.
-/

theorem digitsRev_mem_range (n : Nat) : ∀ d ∈ digitsRev n, 48 ≤ d ∧ d ≤ 57 := by
  induction n using Nat.strong_induction_on with
  | _ n ih =>
    match n with
    | 0 => simp [digitsRev]
    | m + 1 =>
      intro d hd
      rw [digitsRev] at hd
      rcases List.mem_cons.mp hd with h | h
      · subst h
        have h10 : (m + 1) % 10 < 10 := Nat.mod_lt _ (by decide)
        omega
      · exact ih ((m + 1) / 10) (Nat.div_lt_self (Nat.succ_pos m) (by decide)) d h

theorem digitsRev_foldl (n : Nat) :
    ∀ a, ((digitsRev n).reverse).foldl (fun x d => x * 10 + (d - 48)) a =
      a * 10 ^ (digitsRev n).length + n := by
  induction n using Nat.strong_induction_on with
  | _ n ih =>
    match n with
    | 0 => intro a; simp [digitsRev]
    | m + 1 =>
      intro a
      rw [digitsRev]
      rw [List.reverse_cons, List.foldl_append]
      rw [ih ((m + 1) / 10) (Nat.div_lt_self (Nat.succ_pos m) (by decide))]
      simp only [List.foldl_cons, List.foldl_nil, List.length_cons]
      have hsub : 48 + (m + 1) % 10 - 48 = (m + 1) % 10 := by omega
      rw [hsub]
      have hdm : (m + 1) / 10 * 10 + (m + 1) % 10 = m + 1 := by omega
      set X := 10 ^ (digitsRev ((m + 1) / 10)).length with hX
      rw [pow_succ]
      calc (a * X + (m + 1) / 10) * 10 + (m + 1) % 10
          = a * (X * 10) + ((m + 1) / 10 * 10 + (m + 1) % 10) := by ring
        _ = a * (X * 10) + (m + 1) := by rw [hdm]

theorem digitsRev_len_le (k : Nat) : ∀ n, n < 10 ^ k → (digitsRev n).length ≤ k := by
  induction k with
  | zero =>
    intro n h
    have : n = 0 := by simpa using h
    subst this
    simp [digitsRev]
  | succ k ih =>
    intro n h
    match n with
    | 0 => simp [digitsRev]
    | m + 1 =>
      rw [digitsRev]
      simp only [List.length_cons]
      have hq : (m + 1) / 10 < 10 ^ k := by
        rw [Nat.div_lt_iff_lt_mul (by decide : 0 < 10)]
        calc m + 1 < 10 ^ (k + 1) := h
        _ = 10 ^ k * 10 := by rw [pow_succ]
      have := ih ((m + 1) / 10) hq
      omega

theorem digitsRev_getLast (n : Nat) :
    n ≠ 0 → ∀ d, (digitsRev n).getLast? = some d → 49 ≤ d ∧ d ≤ 57 := by
  induction n using Nat.strong_induction_on with
  | _ n ih =>
    match n with
    | 0 => intro h; exact absurd rfl h
    | m + 1 =>
      intro _ d hd
      rw [digitsRev] at hd
      by_cases hq : (m + 1) / 10 = 0
      · have hm : m + 1 < 10 := by omega
        rw [hq] at hd
        simp [digitsRev] at hd
        have : (m + 1) % 10 = m + 1 := Nat.mod_eq_of_lt hm
        omega
      · rcases hq2 : (m + 1) / 10 with _ | p
        · exact absurd hq2 hq
        · rw [hq2] at hd
          rw [digitsRev] at hd
          rw [List.getLast?_cons_cons] at hd
          have := ih ((m + 1) / 10) (Nat.div_lt_self (Nat.succ_pos m) (by decide)) hq d
          rw [hq2] at this
          rw [digitsRev] at this
          exact this hd

/-- C10: for every u16 value n, format_u16 returns the base-10 decimal
digits of n with no leading zero (the single digit 0 when n = 0): every
output byte is an ASCII digit (48 to 57, in particular valid as UTF-8),
reading the bytes back in base 10 gives n, the length fits the 5-byte
tmp buffer of the source, and for nonzero n the leading byte is not the
digit 0. -/
theorem format_u16_decimal (n : Nat) (h : n < 65536) :
    (∀ d ∈ format_u16 n, 48 ≤ d ∧ d ≤ 57) ∧
    (format_u16 n).foldl (fun x d => x * 10 + (d - 48)) 0 = n ∧
    1 ≤ (format_u16 n).length ∧ (format_u16 n).length ≤ 5 ∧
    (n ≠ 0 → ∀ d, (format_u16 n).head? = some d → 49 ≤ d ∧ d ≤ 57) ∧
    (n = 0 → format_u16 n = [48]) := by
  by_cases h0 : n = 0
  · subst h0
    refine ⟨?_, ?_, ?_, ?_, ?_, ?_⟩ <;> simp [format_u16]
  · have hfmt : format_u16 n = (digitsRev n).reverse := by
      rw [format_u16, if_neg h0]
    refine ⟨?_, ?_, ?_, ?_, ?_, ?_⟩
    · rw [hfmt]
      intro d hd
      exact digitsRev_mem_range n d (List.mem_reverse.mp hd)
    · rw [hfmt]
      rw [digitsRev_foldl n 0]
      simp
    · rw [hfmt, List.length_reverse]
      match n, h0 with
      | m + 1, _ => rw [digitsRev]; simp
    · rw [hfmt, List.length_reverse]
      exact digitsRev_len_le 5 n (by norm_num; omega)
    · intro _ d hd
      rw [hfmt, List.head?_reverse] at hd
      exact digitsRev_getLast n h0 d hd
    · intro h; exact absurd h h0

/-- Witness for C10 at the concrete input 60000. -/
theorem format_u16_decimal_witness :
    60000 < 65536 ∧
    ((∀ d ∈ format_u16 60000, 48 ≤ d ∧ d ≤ 57) ∧
     (format_u16 60000).foldl (fun x d => x * 10 + (d - 48)) 0 = 60000 ∧
     1 ≤ (format_u16 60000).length ∧ (format_u16 60000).length ≤ 5 ∧
     (60000 ≠ 0 → ∀ d, (format_u16 60000).head? = some d → 49 ≤ d ∧ d ≤ 57) ∧
     (60000 = 0 → format_u16 60000 = [48])) :=
  ⟨by decide, format_u16_decimal 60000 (by decide)⟩

namespace Snake

theorem sp_not_mem (fuel : Nat) :
    ∀ s body p s2, spawn_food fuel s body = some (p, s2) → p ∉ body := by
  induction fuel with
  | zero => intro s body p s2 h; simp [spawn_food] at h
  | succ n ih =>
    intro s body p s2 h
    rw [spawn_food] at h
    split at h
    · exact ih _ body p s2 h
    · rename_i hc
      injection h with h
      injection h with h1 h2
      subst h1
      simp only [List.any_eq_true, decide_eq_true_eq] at hc
      intro hmem
      exact hc ⟨_, hmem, rfl⟩

theorem tick_keeps_nodup (fuel : Nat) (g g' : Game)
    (hn : g.snake.Nodup) (hne : g.snake ≠ [])
    (h : tick fuel g = some g') : g'.snake.Nodup ∧ g'.snake ≠ [] := by
  rw [tick] at h
  by_cases hgo : g.game_over = true
  · rw [if_pos hgo] at h
    injection h with h
    subst h
    exact ⟨hn, hne⟩
  · rw [if_neg hgo] at h
    rcases hsn : g.snake with _ | ⟨h0, tl⟩
    · exact absurd hsn hne
    · rw [hsn] at h
      simp only at h
      split at h
      · injection h with h; subst h; exact ⟨hsn ▸ hn, hsn ▸ hne⟩
      · split at h
        · injection h with h; subst h; exact ⟨hsn ▸ hn, hsn ▸ hne⟩
        · rename_i hnotmem
          have hmem : stepPos h0 (nextDir g) ∉ h0 :: tl := by
            simp only [List.any_eq_true, decide_eq_true_eq] at hnotmem
            intro hm
            exact hnotmem ⟨_, hm, rfl⟩
          split at h
          · split at h
            · exact absurd h (by simp)
            · rename_i ps _
              injection h with h
              subst h
              refine ⟨?_, ?_⟩
              · exact List.nodup_cons.mpr ⟨hmem, hsn ▸ hn⟩
              · simp
          · injection h with h
            subst h
            refine ⟨?_, ?_⟩
            · exact (List.dropLast_sublist _).nodup (List.nodup_cons.mpr ⟨hmem, hsn ▸ hn⟩)
            · simp [List.dropLast]

theorem reach_nodup : ∀ g, Reach g → g.snake.Nodup ∧ g.snake ≠ [] := by
  intro g h
  induction h with
  | init fuel g hg =>
    rw [newGame] at hg
    rcases hsp : spawn_food fuel 0xDEADBEEF initSnake with _ | ps
    · rw [hsp] at hg; exact absurd hg (by simp)
    · rw [hsp] at hg
      injection hg with hg
      subst hg
      exact ⟨(by decide : initSnake.Nodup), (by decide : initSnake ≠ [])⟩
  | step fuel g g' _ htick ih => exact tick_keeps_nodup fuel g g' ih.1 ih.2 htick
  | dirSet g d _ ih => exact ih

/-- C2: in every reachable snake state that is not game over, the body
list contains no duplicate coordinates. Reachability is closed under
Game::tick (constructor Reach.step), so the tick preserves the property. -/
theorem snake_body_nodup (g : Game) (h : Reach g) (_hgo : g.game_over = false) :
    g.snake.Nodup := (reach_nodup g h).1

/-- Witness for C2 at the concrete initial game built with fuel 10. -/
theorem snake_body_nodup_witness :
    Reach sg0 ∧ sg0.game_over = false ∧ sg0.snake.Nodup :=
  have hr : Reach sg0 := Reach.init 10 sg0 (by decide)
  ⟨hr, rfl, snake_body_nodup sg0 hr rfl⟩

/-- C6 counterexample: in the alive state cWall (head (31, 8) moving
right against the right wall) the tick sets game_over, leaves the body
and so the head unchanged at (31, 8), while one grid cell in the
resulting direction would be (32, 8); so on this alive tick the head
does not advance one cell in the resulting direction. -/
theorem snake_reversal_head_cex :
    cWall.game_over = false ∧
    (tick 5 cWall).map (fun g => g.snake) = some cWall.snake ∧
    (tick 5 cWall).map (fun g => g.snake.head?) = some (some ⟨31, 8⟩) ∧
    (tick 5 cWall).map (fun g => g.game_over) = some true ∧
    (tick 5 cWall).map (fun g => g.direction) = some Direction.Right ∧
    stepPos ⟨31, 8⟩ (nextDir cWall) = ⟨32, 8⟩ ∧
    (⟨31, 8⟩ : Pos) ≠ ⟨32, 8⟩ := by decide

/-- C6 amended: on every alive tick the buffered direction is adopted
unless it is the exact reverse of the current direction (the reversal
request is silently dropped and the current direction preserved, which
is what nextDir computes); the head then advances exactly one grid cell
in the resulting direction provided that stepped cell is inside the
grid and not on the current body. The direction conclusion holds
unconditionally on alive ticks; only the head-advance conclusion
carries the proviso the counterexample forces. -/
theorem snake_tick_direction_head (fuel : Nat) (g g' : Game) (h0 : Pos) (tl : List Pos)
    (hgo : g.game_over = false) (hsn : g.snake = h0 :: tl)
    (h : tick fuel g = some g') :
    g'.direction = nextDir g ∧
    (0 ≤ (stepPos h0 (nextDir g)).x → (stepPos h0 (nextDir g)).x < 32 →
     0 ≤ (stepPos h0 (nextDir g)).y → (stepPos h0 (nextDir g)).y < 17 →
     stepPos h0 (nextDir g) ∉ g.snake →
     g'.snake.head? = some (stepPos h0 (nextDir g)) ∧ g'.game_over = false) := by
  rw [tick, if_neg (by rw [hgo]; exact Bool.false_ne_true), hsn] at h
  simp only at h
  split at h
  · rename_i hwall
    injection h with h
    subst h
    refine ⟨rfl, ?_⟩
    intro hx0 hx1 hy0 hy1 _
    exfalso
    simp only [GRID_W, GRID_H] at hwall
    omega
  · split at h
    · rename_i hany
      injection h with h
      subst h
      refine ⟨rfl, ?_⟩
      intro _ _ _ _ hmem
      exfalso
      simp only [List.any_eq_true, decide_eq_true_eq] at hany
      rcases hany with ⟨q, hq, hqe⟩
      exact hmem (hqe ▸ hsn ▸ hq)
    · split at h
      · rcases hsp : spawn_food fuel g.rng (stepPos h0 (nextDir g) :: h0 :: tl) with _ | ps
        · rw [hsp] at h; exact absurd h (by simp)
        · rw [hsp] at h
          injection h with h
          subst h
          exact ⟨rfl, fun _ _ _ _ _ => ⟨rfl, hgo⟩⟩
      · injection h with h
        subst h
        refine ⟨rfl, fun _ _ _ _ _ => ⟨?_, hgo⟩⟩
        simp [List.dropLast]

/-- Witness for the amended C6 at the concrete mid-board state cMid with
a buffered upward turn: the adopted direction is Up and the head
advances to (5, 7). -/
theorem snake_tick_direction_head_witness :
    cMid.game_over = false ∧ tick 1 cMid = some cMidRes ∧
    (cMidRes.direction = nextDir cMid ∧
     (0 ≤ (stepPos ⟨5, 8⟩ (nextDir cMid)).x → (stepPos ⟨5, 8⟩ (nextDir cMid)).x < 32 →
      0 ≤ (stepPos ⟨5, 8⟩ (nextDir cMid)).y → (stepPos ⟨5, 8⟩ (nextDir cMid)).y < 17 →
      stepPos ⟨5, 8⟩ (nextDir cMid) ∉ cMid.snake →
      cMidRes.snake.head? = some (stepPos ⟨5, 8⟩ (nextDir cMid)) ∧
      cMidRes.game_over = false)) :=
  ⟨rfl, rfl, snake_tick_direction_head 1 cMid cMidRes ⟨5, 8⟩ [⟨4, 8⟩] rfl rfl rfl⟩

/-- C7: on an alive tick whose move is legal, if the new head equals the
food cell then the score increases by one, the body grows by exactly one
segment, and the relocated food avoids the whole new body including the
new head; on a non-eating legal tick the body length stays constant. -/
theorem snake_food_growth (fuel : Nat) (g g' : Game) (h0 : Pos) (tl : List Pos)
    (hgo : g.game_over = false) (hsn : g.snake = h0 :: tl)
    (hx0 : 0 ≤ (stepPos h0 (nextDir g)).x) (hx1 : (stepPos h0 (nextDir g)).x < 32)
    (hy0 : 0 ≤ (stepPos h0 (nextDir g)).y) (hy1 : (stepPos h0 (nextDir g)).y < 17)
    (hmem : stepPos h0 (nextDir g) ∉ g.snake)
    (hsc : g.score + 1 < 65536)
    (h : tick fuel g = some g') :
    (stepPos h0 (nextDir g) = g.food →
      g'.score = g.score + 1 ∧ g'.snake.length = g.snake.length + 1 ∧ g'.food ∉ g'.snake) ∧
    (stepPos h0 (nextDir g) ≠ g.food →
      g'.snake.length = g.snake.length ∧ g'.score = g.score) := by
  rw [tick, if_neg (by rw [hgo]; exact Bool.false_ne_true), hsn] at h
  simp only at h
  rw [if_neg (by
    simp only [GRID_W, GRID_H]
    push_neg
    exact ⟨hx0, hx1, hy0, hy1⟩)] at h
  rw [if_neg (by
    simp only [List.any_eq_true, decide_eq_true_eq]
    intro hex
    rcases hex with ⟨q, hq, hqe⟩
    exact hmem (hqe ▸ hsn ▸ hq))] at h
  by_cases hf : stepPos h0 (nextDir g) = g.food
  · rw [if_pos hf] at h
    rcases hsp : spawn_food fuel g.rng (stepPos h0 (nextDir g) :: h0 :: tl) with _ | ps
    · rw [hsp] at h; exact absurd h (by simp)
    · rw [hsp] at h
      injection h with h
      subst h
      refine ⟨fun _ => ⟨?_, ?_, ?_⟩, fun hne => absurd hf hne⟩
      · exact Nat.mod_eq_of_lt hsc
      · simp [hsn]
      · have := sp_not_mem fuel g.rng (stepPos h0 (nextDir g) :: h0 :: tl) ps.1 ps.2
        simp only at this
        exact this (by rw [hsp])
  · rw [if_neg hf] at h
    injection h with h
    subst h
    refine ⟨fun hyes => absurd hyes hf, fun _ => ⟨?_, rfl⟩⟩
    simp [hsn, List.length_dropLast]

/-- Witness for C7 at the concrete eating state cEat. -/
theorem snake_food_growth_witness :
    cEat.game_over = false ∧ stepPos ⟨5, 8⟩ (nextDir cEat) = cEat.food ∧
    tick 20 cEat = some cEatRes ∧
    ((stepPos ⟨5, 8⟩ (nextDir cEat) = cEat.food →
      cEatRes.score = cEat.score + 1 ∧ cEatRes.snake.length = cEat.snake.length + 1 ∧
      cEatRes.food ∉ cEatRes.snake) ∧
     (stepPos ⟨5, 8⟩ (nextDir cEat) ≠ cEat.food →
      cEatRes.snake.length = cEat.snake.length ∧ cEatRes.score = cEat.score)) :=
  ⟨rfl, by decide, rfl,
   snake_food_growth 20 cEat cEatRes ⟨5, 8⟩ [⟨4, 8⟩, ⟨3, 8⟩] rfl rfl
     (by decide) (by decide) (by decide) (by decide) (by decide) (by decide) rfl⟩

end Snake

namespace Snake

theorem fill_bars_fst (bc : Nat) :
    ∀ k j, (fill_bars bc k ((fun _ => false), (fun _ => false))).1 j =
      decide (j < k ∧ j < bc / 2) := by
  intro k
  induction k with
  | zero => intro j; simp [fill_bars]
  | succ k ih =>
    intro j
    rw [fill_bars]
    by_cases hk : k < bc / 2
    · rw [if_pos hk]
      simp only
      by_cases hj : j = k
      · subst hj
        simp [hk]
      · rw [if_neg hj, ih j]
        have : (j < k ∧ j < bc / 2) ↔ (j < k + 1 ∧ j < bc / 2) := by omega
        exact decide_eq_decide.mpr this
    · rw [if_neg hk]
      simp only
      rw [ih j]
      have : (j < k ∧ j < bc / 2) ↔ (j < k + 1 ∧ j < bc / 2) := by omega
      exact decide_eq_decide.mpr this

theorem fill_bars_snd (bc : Nat) :
    ∀ k j, (fill_bars bc k ((fun _ => false), (fun _ => false))).2 j =
      decide (j + bc / 2 < k) := by
  intro k
  induction k with
  | zero => intro j; simp [fill_bars]
  | succ k ih =>
    intro j
    rw [fill_bars]
    by_cases hk : k < bc / 2
    · rw [if_pos hk]
      simp only
      rw [ih j]
      have : (j + bc / 2 < k) ↔ (j + bc / 2 < k + 1) := by omega
      exact decide_eq_decide.mpr this
    · rw [if_neg hk]
      simp only
      by_cases hj : j = k - bc / 2
      · subst hj
        simp only [if_pos rfl]
        have : k - bc / 2 + bc / 2 < k + 1 := by omega
        simp [this]
      · rw [if_neg hj, ih j]
        have : (j + bc / 2 < k) ↔ (j + bc / 2 < k + 1) := by omega
        exact decide_eq_decide.mpr this

theorem litCount_lt (k : Nat) : ∀ n, litCount n (fun j => decide (j < k)) = min k n := by
  intro n
  induction n with
  | zero => simp [litCount]
  | succ n ih =>
    rw [litCount, List.range_succ, List.filter_append, List.length_append]
    rw [litCount] at ih
    rw [ih]
    by_cases hn : n < k
    · simp [hn]
      omega
    · simp [hn]
      omega

theorem litCount_congr (n : Nat) (f g : Nat → Bool) (h : ∀ j, f j = g j) :
    litCount n f = litCount n g := by
  rw [litCount, litCount, List.filter_congr (fun a _ => h a)]

/-- C9: while the snake game is running, update_leds lights
min score BAR_COUNT LEDs in total (the score capped at the bar count),
and the bar-graph positions are divided between the two sides at
BAR_COUNT / 2: the left bar carries the graph positions below
BAR_COUNT / 2 and the right bar the remaining ones, an even split of
the graph for an even BAR_COUNT. The BAR_COUNT constant lives in the
badge support library outside this repository, so it is a parameter bc. -/
theorem snake_led_bar (bc score : Nat) :
    litCount bc (update_leds_bars bc score).1 + litCount bc (update_leds_bars bc score).2 =
      min score bc ∧
    litCount bc (update_leds_bars bc score).1 = min (min score bc) (bc / 2) ∧
    litCount bc (update_leds_bars bc score).2 = min score bc - bc / 2 := by
  have h1 : litCount bc (update_leds_bars bc score).1 = min (min score bc) (bc / 2) := by
    rw [update_leds_bars]
    rw [litCount_congr bc _ (fun j => decide (j < min (min score bc) (bc / 2)))
      (fun j => by
        rw [fill_bars_fst]
        exact decide_eq_decide.mpr (by omega))]
    rw [litCount_lt]
    omega
  have h2 : litCount bc (update_leds_bars bc score).2 = min score bc - bc / 2 := by
    rw [update_leds_bars]
    rw [litCount_congr bc _ (fun j => decide (j < min score bc - bc / 2))
      (fun j => by
        rw [fill_bars_snd]
        exact decide_eq_decide.mpr (by omega))]
    rw [litCount_lt]
    omega
  exact ⟨by rw [h1, h2]; omega, h1, h2⟩

end Snake

namespace Breakout

@[simp] theorem ledPhase_ball_x (g : Game) : (ledPhase g).ball_x = g.ball_x := by
  rw [ledPhase]; split <;> rfl

@[simp] theorem ledPhase_ball_y (g : Game) : (ledPhase g).ball_y = g.ball_y := by
  rw [ledPhase]; split <;> rfl

@[simp] theorem ledPhase_ball_dx (g : Game) : (ledPhase g).ball_dx = g.ball_dx := by
  rw [ledPhase]; split <;> rfl

@[simp] theorem ledPhase_ball_dy (g : Game) : (ledPhase g).ball_dy = g.ball_dy := by
  rw [ledPhase]; split <;> rfl

@[simp] theorem ledPhase_paddle_x (g : Game) : (ledPhase g).paddle_x = g.paddle_x := by
  rw [ledPhase]; split <;> rfl

@[simp] theorem ledPhase_game_over (g : Game) : (ledPhase g).game_over = g.game_over := by
  rw [ledPhase]; split <;> rfl

@[simp] theorem ledPhase_launched (g : Game) : (ledPhase g).launched = g.launched := by
  rw [ledPhase]; split <;> rfl

@[simp] theorem ledPhase_bricks (g : Game) : (ledPhase g).bricks = g.bricks := by
  rw [ledPhase]; split <;> rfl

@[simp] theorem ledPhase_score (g : Game) : (ledPhase g).score = g.score := by
  rw [ledPhase]; split <;> rfl

@[simp] theorem ledPhase_lives (g : Game) : (ledPhase g).lives = g.lives := by
  rw [ledPhase]; split <;> rfl

@[simp] theorem movePhase_ball_x (g : Game) : (movePhase g).ball_x = g.ball_x + g.ball_dx := rfl

@[simp] theorem movePhase_ball_y (g : Game) : (movePhase g).ball_y = g.ball_y + g.ball_dy := rfl

@[simp] theorem movePhase_ball_dx (g : Game) : (movePhase g).ball_dx = g.ball_dx := rfl

@[simp] theorem movePhase_ball_dy (g : Game) : (movePhase g).ball_dy = g.ball_dy := rfl

@[simp] theorem movePhase_paddle_x (g : Game) : (movePhase g).paddle_x = g.paddle_x := rfl

@[simp] theorem movePhase_game_over (g : Game) : (movePhase g).game_over = g.game_over := rfl

@[simp] theorem movePhase_launched (g : Game) : (movePhase g).launched = g.launched := rfl

@[simp] theorem movePhase_bricks (g : Game) : (movePhase g).bricks = g.bricks := rfl

@[simp] theorem movePhase_score (g : Game) : (movePhase g).score = g.score := rfl

@[simp] theorem movePhase_lives (g : Game) : (movePhase g).lives = g.lives := rfl

theorem wallLeft_ball_x (g : Game) :
    (wallLeft g).ball_x = if g.ball_x ≤ 0 then 0 else g.ball_x := by
  rw [wallLeft]; split <;> rfl

@[simp] theorem wallLeft_ball_y (g : Game) : (wallLeft g).ball_y = g.ball_y := by
  rw [wallLeft]; split <;> rfl

@[simp] theorem wallLeft_ball_dy (g : Game) : (wallLeft g).ball_dy = g.ball_dy := by
  rw [wallLeft]; split <;> rfl

@[simp] theorem wallLeft_paddle_x (g : Game) : (wallLeft g).paddle_x = g.paddle_x := by
  rw [wallLeft]; split <;> rfl

@[simp] theorem wallLeft_game_over (g : Game) : (wallLeft g).game_over = g.game_over := by
  rw [wallLeft]; split <;> rfl

@[simp] theorem wallLeft_launched (g : Game) : (wallLeft g).launched = g.launched := by
  rw [wallLeft]; split <;> rfl

@[simp] theorem wallLeft_bricks (g : Game) : (wallLeft g).bricks = g.bricks := by
  rw [wallLeft]; split <;> rfl

@[simp] theorem wallLeft_score (g : Game) : (wallLeft g).score = g.score := by
  rw [wallLeft]; split <;> rfl

@[simp] theorem wallLeft_lives (g : Game) : (wallLeft g).lives = g.lives := by
  rw [wallLeft]; split <;> rfl

theorem wallRight_ball_x (g : Game) :
    (wallRight g).ball_x = if g.ball_x + 4 ≥ 320 then 316 else g.ball_x := by
  rw [wallRight]; split <;> rfl

@[simp] theorem wallRight_ball_y (g : Game) : (wallRight g).ball_y = g.ball_y := by
  rw [wallRight]; split <;> rfl

@[simp] theorem wallRight_ball_dy (g : Game) : (wallRight g).ball_dy = g.ball_dy := by
  rw [wallRight]; split <;> rfl

@[simp] theorem wallRight_paddle_x (g : Game) : (wallRight g).paddle_x = g.paddle_x := by
  rw [wallRight]; split <;> rfl

@[simp] theorem wallRight_game_over (g : Game) : (wallRight g).game_over = g.game_over := by
  rw [wallRight]; split <;> rfl

@[simp] theorem wallRight_launched (g : Game) : (wallRight g).launched = g.launched := by
  rw [wallRight]; split <;> rfl

@[simp] theorem wallRight_bricks (g : Game) : (wallRight g).bricks = g.bricks := by
  rw [wallRight]; split <;> rfl

@[simp] theorem wallRight_score (g : Game) : (wallRight g).score = g.score := by
  rw [wallRight]; split <;> rfl

@[simp] theorem wallRight_lives (g : Game) : (wallRight g).lives = g.lives := by
  rw [wallRight]; split <;> rfl

theorem wallTop_ball_y (g : Game) :
    (wallTop g).ball_y = if g.ball_y ≤ 0 then 0 else g.ball_y := by
  rw [wallTop]; split <;> rfl

theorem wallTop_ball_dy (g : Game) :
    (wallTop g).ball_dy = if g.ball_y ≤ 0 then absI g.ball_dy else g.ball_dy := by
  rw [wallTop]; split <;> rfl

@[simp] theorem wallTop_ball_x (g : Game) : (wallTop g).ball_x = g.ball_x := by
  rw [wallTop]; split <;> rfl

@[simp] theorem wallTop_paddle_x (g : Game) : (wallTop g).paddle_x = g.paddle_x := by
  rw [wallTop]; split <;> rfl

@[simp] theorem wallTop_game_over (g : Game) : (wallTop g).game_over = g.game_over := by
  rw [wallTop]; split <;> rfl

@[simp] theorem wallTop_launched (g : Game) : (wallTop g).launched = g.launched := by
  rw [wallTop]; split <;> rfl

@[simp] theorem wallTop_bricks (g : Game) : (wallTop g).bricks = g.bricks := by
  rw [wallTop]; split <;> rfl

@[simp] theorem wallTop_score (g : Game) : (wallTop g).score = g.score := by
  rw [wallTop]; split <;> rfl

@[simp] theorem wallTop_lives (g : Game) : (wallTop g).lives = g.lives := by
  rw [wallTop]; split <;> rfl

theorem wallPhase_ball_x_bounds (g : Game) :
    0 ≤ (wallPhase g).ball_x ∧ (wallPhase g).ball_x ≤ 316 := by
  rw [wallPhase]
  rw [wallTop_ball_x, wallRight_ball_x, wallLeft_ball_x]
  split_ifs <;> omega

theorem wallPhase_ball_y_eq (g : Game) :
    (wallPhase g).ball_y = if g.ball_y ≤ 0 then 0 else g.ball_y := by
  rw [wallPhase, wallTop_ball_y]
  simp

theorem wallPhase_ball_dy_mem (g : Game) (h : g.ball_dy = 2 ∨ g.ball_dy = -2) :
    (wallPhase g).ball_dy = 2 ∨ (wallPhase g).ball_dy = -2 := by
  rw [wallPhase, wallTop_ball_dy]
  simp only [wallRight_ball_dy, wallLeft_ball_dy]
  split_ifs
  · rcases h with h | h <;> rw [h] <;> left <;> rfl
  · exact h

@[simp] theorem wallPhase_paddle_x (g : Game) : (wallPhase g).paddle_x = g.paddle_x := by
  rw [wallPhase]; simp

@[simp] theorem wallPhase_game_over (g : Game) : (wallPhase g).game_over = g.game_over := by
  rw [wallPhase]; simp

@[simp] theorem wallPhase_launched (g : Game) : (wallPhase g).launched = g.launched := by
  rw [wallPhase]; simp

@[simp] theorem wallPhase_bricks (g : Game) : (wallPhase g).bricks = g.bricks := by
  rw [wallPhase]; simp

@[simp] theorem wallPhase_score (g : Game) : (wallPhase g).score = g.score := by
  rw [wallPhase]; simp

@[simp] theorem wallPhase_lives (g : Game) : (wallPhase g).lives = g.lives := by
  rw [wallPhase]; simp

@[simp] theorem paddlePhase_ball_x (g : Game) : (paddlePhase g).ball_x = g.ball_x := by
  simp only [paddlePhase]; split_ifs <;> rfl

@[simp] theorem paddlePhase_ball_y (g : Game) : (paddlePhase g).ball_y = g.ball_y := by
  simp only [paddlePhase]; split_ifs <;> rfl

@[simp] theorem paddlePhase_paddle_x (g : Game) : (paddlePhase g).paddle_x = g.paddle_x := by
  simp only [paddlePhase]; split_ifs <;> rfl

@[simp] theorem paddlePhase_game_over (g : Game) : (paddlePhase g).game_over = g.game_over := by
  simp only [paddlePhase]; split_ifs <;> rfl

@[simp] theorem paddlePhase_launched (g : Game) : (paddlePhase g).launched = g.launched := by
  simp only [paddlePhase]; split_ifs <;> rfl

@[simp] theorem paddlePhase_bricks (g : Game) : (paddlePhase g).bricks = g.bricks := by
  simp only [paddlePhase]; split_ifs <;> rfl

@[simp] theorem paddlePhase_score (g : Game) : (paddlePhase g).score = g.score := by
  simp only [paddlePhase]; split_ifs <;> rfl

@[simp] theorem paddlePhase_lives (g : Game) : (paddlePhase g).lives = g.lives := by
  simp only [paddlePhase]; split_ifs <;> rfl

@[simp] theorem paddlePhase_led_flash (g : Game) : (paddlePhase g).led_flash = g.led_flash := by
  simp only [paddlePhase]; split_ifs <;> rfl

theorem paddlePhase_ball_dy_mem (g : Game) (h : g.ball_dy = 2 ∨ g.ball_dy = -2) :
    (paddlePhase g).ball_dy = 2 ∨ (paddlePhase g).ball_dy = -2 := by
  simp only [paddlePhase]
  split_ifs <;> try exact h
  all_goals rcases h with h | h <;> rw [h] <;> right <;> rfl

theorem paddlePhase_id_of_high (g : Game) (h : g.ball_y + 4 < 146) : paddlePhase g = g := by
  rw [paddlePhase, if_neg]
  intro hc
  omega

end Breakout

namespace Breakout

@[simp] theorem applyHit_ball_x (r c : Nat) (g : Game) : (applyHit r c g).ball_x = g.ball_x := by
  simp only [applyHit]; split_ifs <;> rfl

@[simp] theorem applyHit_ball_y (r c : Nat) (g : Game) : (applyHit r c g).ball_y = g.ball_y := by
  simp only [applyHit]; split_ifs <;> rfl

@[simp] theorem applyHit_paddle_x (r c : Nat) (g : Game) :
    (applyHit r c g).paddle_x = g.paddle_x := by
  simp only [applyHit]; split_ifs <;> rfl

@[simp] theorem applyHit_launched (r c : Nat) (g : Game) :
    (applyHit r c g).launched = g.launched := by
  simp only [applyHit]; split_ifs <;> rfl

@[simp] theorem applyHit_lives (r c : Nat) (g : Game) : (applyHit r c g).lives = g.lives := by
  simp only [applyHit]; split_ifs <;> rfl

@[simp] theorem applyHit_led_flash (r c : Nat) (g : Game) : (applyHit r c g).led_flash = 6 := by
  simp only [applyHit]; split_ifs <;> rfl

@[simp] theorem applyHit_score (r c : Nat) (g : Game) :
    (applyHit r c g).score = (g.score + (5 - r)) % 65536 := by
  simp only [applyHit]; split_ifs <;> rfl

@[simp] theorem applyHit_bricks (r c : Nat) (g : Game) :
    (applyHit r c g).bricks = fun r2 c2 => if r2 = r ∧ c2 = c then false else g.bricks r2 c2 := by
  simp only [applyHit]; split_ifs <;> rfl

theorem applyHit_ball_dy_mem (r c : Nat) (g : Game) (h : g.ball_dy = 2 ∨ g.ball_dy = -2) :
    (applyHit r c g).ball_dy = 2 ∨ (applyHit r c g).ball_dy = -2 := by
  simp only [applyHit]
  split_ifs <;> try exact h
  all_goals rcases h with h | h <;> simp [h]

theorem applyHit_axis (r c : Nat) (g : Game) :
    ((g.ball_x + 2 - (cellX c + cellW c / 2)).natAbs >
        (g.ball_y + 2 - (cellY r + cellH r / 2)).natAbs →
      (applyHit r c g).ball_dx = -g.ball_dx ∧ (applyHit r c g).ball_dy = g.ball_dy) ∧
    (¬((g.ball_x + 2 - (cellX c + cellW c / 2)).natAbs >
        (g.ball_y + 2 - (cellY r + cellH r / 2)).natAbs) →
      (applyHit r c g).ball_dy = -g.ball_dy ∧ (applyHit r c g).ball_dx = g.ball_dx) := by
  constructor
  · intro hgt
    simp only [applyHit, if_pos hgt]
    split_ifs <;> exact ⟨rfl, rfl⟩
  · intro hle
    simp only [applyHit, if_neg hle]
    split_ifs <;> exact ⟨rfl, rfl⟩

theorem brickPhase_same (L : List (Nat × Nat)) (g : Game) :
    (brickPhase L g).ball_x = g.ball_x ∧ (brickPhase L g).ball_y = g.ball_y ∧
    (brickPhase L g).paddle_x = g.paddle_x ∧ (brickPhase L g).lives = g.lives ∧
    (brickPhase L g).launched = g.launched := by
  induction L with
  | nil => exact ⟨rfl, rfl, rfl, rfl, rfl⟩
  | cons p rest ih =>
    rcases p with ⟨r, c⟩
    rw [brickPhase]
    split
    · exact ⟨applyHit_ball_x r c g, applyHit_ball_y r c g, applyHit_paddle_x r c g,
        applyHit_lives r c g, applyHit_launched r c g⟩
    · exact ih

theorem brickPhase_ball_dy_mem (L : List (Nat × Nat)) (g : Game)
    (h : g.ball_dy = 2 ∨ g.ball_dy = -2) :
    (brickPhase L g).ball_dy = 2 ∨ (brickPhase L g).ball_dy = -2 := by
  induction L with
  | nil => exact h
  | cons p rest ih =>
    rcases p with ⟨r, c⟩
    rw [brickPhase]
    split
    · exact applyHit_ball_dy_mem r c g h
    · exact ih

theorem inv_new : Inv new := by
  rw [Inv]
  refine ⟨by decide, by decide, by decide, by decide, by decide, by decide, ?_, by decide⟩
  intro _
  decide

theorem inv_moveLeft (g : Game) (h : Inv g) : Inv (moveLeft g) := by
  rw [Inv] at h ⊢
  rw [moveLeft]
  simp only
  obtain ⟨h1, h2, h3, h4, h5, h6, h7, h8⟩ := h
  refine ⟨by omega, by omega, ?_, ?_, h5, h6, h7, h8⟩
  · split <;> omega
  · split <;> omega

theorem inv_moveRight (g : Game) (h : Inv g) : Inv (moveRight g) := by
  rw [Inv] at h ⊢
  rw [moveRight]
  simp only
  obtain ⟨h1, h2, h3, h4, h5, h6, h7, h8⟩ := h
  refine ⟨by omega, by omega, ?_, ?_, h5, h6, h7, h8⟩
  · split <;> omega
  · split <;> omega

theorem inv_launch (g : Game) (h : Inv g) : Inv (launch g) := by
  rw [launch]
  split
  · exact h
  · rw [Inv] at h ⊢
    exact h

theorem inv_tick (g : Game) (h : Inv g) : Inv (tick g) := by
  rw [tick]
  by_cases hskip : (g.game_over || !g.launched) = true
  · rw [if_pos hskip]; exact h
  · rw [if_neg hskip]
    simp only [Bool.or_eq_true, Bool.not_eq_true'] at hskip
    push_neg at hskip
    have hgo : g.game_over = false := Bool.not_eq_true _ ▸ hskip.1
    obtain ⟨h1, h2, h3, h4, h5, h6, h7, h8⟩ := h
    set gm := wallPhase (movePhase (ledPhase g)) with hgm
    have hmx : 0 ≤ gm.ball_x ∧ gm.ball_x ≤ 316 := wallPhase_ball_x_bounds _
    have hmy : 0 ≤ gm.ball_y ∧ gm.ball_y ≤ 167 := by
      rw [hgm, wallPhase_ball_y_eq]
      simp only [movePhase_ball_y, ledPhase_ball_y, ledPhase_ball_dy]
      have hy165 : g.ball_y ≤ 165 := h7 hgo
      split <;> omega
    have hmdy : gm.ball_dy = 2 ∨ gm.ball_dy = -2 := by
      rw [hgm]
      apply wallPhase_ball_dy_mem
      simpa using h8
    have hmgo : gm.game_over = false := by
      rw [hgm]; simpa using hgo
    have hmp : gm.paddle_x = g.paddle_x := by rw [hgm]; simp
    by_cases hb : gm.ball_y + 4 ≥ 170
    · rw [if_pos hb]
      rw [bottomPhase]
      split
      · rw [Inv]
        simp only [hmp]
        refine ⟨h1, h2, hmx.1, hmx.2, hmy.1, by omega, ?_, hmdy⟩
        intro hfalse
        simp at hfalse
      · rw [Inv, reset_ball]
        dsimp only
        rw [hmp]
        exact ⟨h1, h2, by omega, by omega, by omega, by omega, fun _ => by omega, Or.inr rfl⟩
    · rw [if_neg hb]
      rw [Inv]
      obtain ⟨b1, b2, b3, b4, b5⟩ := brickPhase_same scanIdx (paddlePhase gm)
      rw [b1, b2, b3]
      simp only [paddlePhase_ball_x, paddlePhase_ball_y, paddlePhase_paddle_x, hmp]
      refine ⟨h1, h2, hmx.1, hmx.2, hmy.1, by omega, fun _ => by omega, ?_⟩
      exact brickPhase_ball_dy_mem _ _ (paddlePhase_ball_dy_mem _ hmdy)

theorem inv_reach (g : Game) (h : Reach g) : Inv g := by
  induction h with
  | init => exact inv_new
  | step g _ ih => exact inv_tick g ih
  | left g _ ih => exact inv_moveLeft g ih
  | right g _ ih => exact inv_moveRight g ih
  | pressA g _ ih => exact inv_launch g ih

/-- C1: in every reachable breakout state, and in particular after every
completed Game::tick, the ball satisfies 0 <= ball_x <= W - BALL_SIZE
and 0 <= ball_y < H, with W = 320, H = 170, BALL_SIZE = 4. -/
theorem breakout_ball_in_bounds (g : Game) (h : Reach g) :
    0 ≤ g.ball_x ∧ g.ball_x ≤ 316 ∧ 0 ≤ g.ball_y ∧ g.ball_y < 170 := by
  obtain ⟨_, _, h3, h4, h5, h6, _, _⟩ := inv_reach g h
  exact ⟨h3, h4, h5, h6⟩

/-- Witness for C1 at the initial state. -/
theorem breakout_ball_in_bounds_witness :
    0 ≤ new.ball_x ∧ new.ball_x ≤ 316 ∧ 0 ≤ new.ball_y ∧ new.ball_y < 170 :=
  breakout_ball_in_bounds new Reach.init

end Breakout

namespace Breakout

theorem hitAt_iff_and (g : Game) (r c : Nat) :
    (g.bricks r c && overlapB g r c) = true ↔ hitAt g (r, c) := by
  rw [Bool.and_eq_true, hitAt]

theorem brickPhase_skip (L : List (Nat × Nat)) (g : Game) (h : ∀ p ∈ L, ¬ hitAt g p) :
    brickPhase L g = g := by
  induction L with
  | nil => rfl
  | cons p rest ih =>
    rcases p with ⟨r, c⟩
    rw [brickPhase, if_neg]
    · exact ih (fun q hq => h q (List.mem_cons_of_mem _ hq))
    · intro hc
      exact h (r, c) (List.mem_cons_self _ _) ((hitAt_iff_and g r c).mp hc)

theorem brickPhase_first (g : Game) (r c : Nat) (L1 L2 : List (Nat × Nat))
    (h1 : ∀ p ∈ L1, ¬ hitAt g p) (hhit : hitAt g (r, c)) :
    brickPhase (L1 ++ (r, c) :: L2) g = applyHit r c g := by
  induction L1 with
  | nil =>
    rw [List.nil_append, brickPhase, if_pos ((hitAt_iff_and g r c).mpr hhit)]
  | cons q rest ih =>
    rcases q with ⟨r2, c2⟩
    rw [List.cons_append, brickPhase, if_neg]
    · exact ih (fun p hp => h1 p (List.mem_cons_of_mem _ hp))
    · intro hc
      exact h1 (r2, c2) (List.mem_cons_self _ _) ((hitAt_iff_and g r2 c2).mp hc)

theorem scanIdx_pairwise : scanIdx.Pairwise rmLt := by decide

theorem scanIdx_bound : ∀ p ∈ scanIdx, p.1 < 5 ∧ p.2 < 21 := by decide

theorem mem_scanIdx (r c : Nat) (hr : r < 5) (hc : c < 21) : (r, c) ∈ scanIdx := by
  simp only [scanIdx, List.mem_flatMap, List.mem_map, List.mem_range]
  exact ⟨r, hr, c, hc, rfl⟩

theorem hitAt_paddlePhase (g : Game) (p : Nat × Nat) :
    hitAt (paddlePhase g) p ↔ hitAt g p := by
  rw [hitAt, hitAt, overlapB, overlapB]
  simp

theorem tick_hit (g : Game) (r c : Nat)
    (hgo : g.game_over = false) (hl : g.launched = true) (hr : r < 5) (hc : c < 21)
    (hnb : ¬ (wallPhase (movePhase (ledPhase g))).ball_y + 4 ≥ 170)
    (hhit : hitAt (wallPhase (movePhase (ledPhase g))) (r, c))
    (hfirst : ∀ r2, r2 < 5 → ∀ c2, c2 < 21 → rmLt (r2, c2) (r, c) →
      ¬ hitAt (wallPhase (movePhase (ledPhase g))) (r2, c2)) :
    tick g = applyHit r c (paddlePhase (wallPhase (movePhase (ledPhase g)))) := by
  rw [tick]
  rw [if_neg (by simp [hgo, hl])]
  dsimp only
  rw [if_neg hnb]
  obtain ⟨L1, L2, hsplit⟩ := List.append_of_mem (mem_scanIdx r c hr hc)
  rw [hsplit]
  apply brickPhase_first
  · intro p hp
    have hmem : p ∈ scanIdx := by rw [hsplit]; exact List.mem_append_left _ hp
    have hb := scanIdx_bound p hmem
    have hpw := scanIdx_pairwise
    rw [hsplit] at hpw
    have hlt : rmLt p (r, c) :=
      (List.pairwise_append.mp hpw).2.2 p hp (r, c) (List.mem_cons_self _ _)
    rw [hitAt_paddlePhase]
    exact hfirst p.1 hb.1 p.2 hb.2 hlt
  · rw [hitAt_paddlePhase]
    exact hhit

/-- C3: on a tick where the game is running, the ball was launched, the
bottom-loss branch does not fire, and after integration and wall clamps
the ball overlaps the live brick (r, c) while no earlier brick in
row-major scan order is a live overlapped brick, exactly brick (r, c) is
destroyed, every other brick keeps its state, the score increases by
ROWS - r = 5 - r, and the LED flash is armed at LED_FLASH_TICKS = 6. -/
theorem breakout_first_brick_hit (g : Game) (r c : Nat)
    (hgo : g.game_over = false) (hl : g.launched = true) (hr : r < 5) (hc : c < 21)
    (hnb : ¬ (wallPhase (movePhase (ledPhase g))).ball_y + 4 ≥ 170)
    (hhit : hitAt (wallPhase (movePhase (ledPhase g))) (r, c))
    (hfirst : ∀ r2, r2 < 5 → ∀ c2, c2 < 21 → rmLt (r2, c2) (r, c) →
      ¬ hitAt (wallPhase (movePhase (ledPhase g))) (r2, c2))
    (hsc : g.score + 5 < 65536) :
    (tick g).bricks r c = false ∧
    (∀ r2 c2, ¬(r2 = r ∧ c2 = c) → (tick g).bricks r2 c2 = g.bricks r2 c2) ∧
    (tick g).score = g.score + (5 - r) ∧
    (tick g).led_flash = 6 := by
  rw [tick_hit g r c hgo hl hr hc hnb hhit hfirst]
  refine ⟨?_, ?_, ?_, ?_⟩
  · rw [applyHit_bricks]
    simp
  · intro r2 c2 hne
    rw [applyHit_bricks]
    simp only [if_neg hne]
    simp
  · rw [applyHit_score]
    simp only [paddlePhase_score, wallPhase_score, movePhase_score, ledPhase_score]
    exact Nat.mod_eq_of_lt (by omega)
  · exact applyHit_led_flash _ _ _

/-- Witness for C3 at the concrete state gLow hitting brick (4, 0). -/
theorem breakout_first_brick_hit_witness :
    gLow.game_over = false ∧ gLow.launched = true ∧ gLow.score + 5 < 65536 ∧
    ((tick gLow).bricks 4 0 = false ∧
     (∀ r2 c2, ¬(r2 = 4 ∧ c2 = 0) → (tick gLow).bricks r2 c2 = gLow.bricks r2 c2) ∧
     (tick gLow).score = gLow.score + (5 - 4) ∧
     (tick gLow).led_flash = 6) :=
  ⟨rfl, rfl, by decide,
   breakout_first_brick_hit gLow 4 0 rfl rfl (by decide) (by decide) (by decide)
     (by decide) (by decide) (by decide)⟩

theorem cellYH_le : ∀ r, r < 5 → cellY r + cellH r ≤ 73 := by decide

/-- C4: on a brick-hit tick, writing dxa and dya for the absolute
horizontal and vertical distances between ball center and brick center
at contact time, if dxa > dya the horizontal velocity component is
negated and the vertical one kept, otherwise the vertical component is
negated and the horizontal one kept. -/
theorem breakout_bounce_axis (g : Game) (r c : Nat)
    (hgo : g.game_over = false) (hl : g.launched = true) (hr : r < 5) (hc : c < 21)
    (hnb : ¬ (wallPhase (movePhase (ledPhase g))).ball_y + 4 ≥ 170)
    (hhit : hitAt (wallPhase (movePhase (ledPhase g))) (r, c))
    (hfirst : ∀ r2, r2 < 5 → ∀ c2, c2 < 21 → rmLt (r2, c2) (r, c) →
      ¬ hitAt (wallPhase (movePhase (ledPhase g))) (r2, c2)) :
    (((wallPhase (movePhase (ledPhase g))).ball_x + 2 - (cellX c + cellW c / 2)).natAbs >
        ((wallPhase (movePhase (ledPhase g))).ball_y + 2 - (cellY r + cellH r / 2)).natAbs →
      (tick g).ball_dx = -(wallPhase (movePhase (ledPhase g))).ball_dx ∧
      (tick g).ball_dy = (wallPhase (movePhase (ledPhase g))).ball_dy) ∧
    (¬(((wallPhase (movePhase (ledPhase g))).ball_x + 2 - (cellX c + cellW c / 2)).natAbs >
        ((wallPhase (movePhase (ledPhase g))).ball_y + 2 - (cellY r + cellH r / 2)).natAbs) →
      (tick g).ball_dy = -(wallPhase (movePhase (ledPhase g))).ball_dy ∧
      (tick g).ball_dx = (wallPhase (movePhase (ledPhase g))).ball_dx) := by
  have hov := hhit.2
  simp only [overlapB, Bool.and_eq_true, decide_eq_true_eq] at hov
  have hpid : paddlePhase (wallPhase (movePhase (ledPhase g))) =
      wallPhase (movePhase (ledPhase g)) := by
    apply paddlePhase_id_of_high
    have := cellYH_le r hr
    omega
  rw [tick_hit g r c hgo hl hr hc hnb hhit hfirst, hpid]
  exact applyHit_axis r c (wallPhase (movePhase (ledPhase g)))

/-- Witness for C4 at the concrete state gLow hitting brick (4, 0)
dead-center horizontally, so the vertical axis is selected. -/
theorem breakout_bounce_axis_witness :
    gLow.game_over = false ∧ gLow.launched = true ∧
    ((((wallPhase (movePhase (ledPhase gLow))).ball_x + 2 - (cellX 0 + cellW 0 / 2)).natAbs >
        ((wallPhase (movePhase (ledPhase gLow))).ball_y + 2 - (cellY 4 + cellH 4 / 2)).natAbs →
      (tick gLow).ball_dx = -(wallPhase (movePhase (ledPhase gLow))).ball_dx ∧
      (tick gLow).ball_dy = (wallPhase (movePhase (ledPhase gLow))).ball_dy) ∧
     (¬((((wallPhase (movePhase (ledPhase gLow))).ball_x + 2 -
          (cellX 0 + cellW 0 / 2)).natAbs >
        ((wallPhase (movePhase (ledPhase gLow))).ball_y + 2 -
          (cellY 4 + cellH 4 / 2)).natAbs)) →
      (tick gLow).ball_dy = -(wallPhase (movePhase (ledPhase gLow))).ball_dy ∧
      (tick gLow).ball_dx = (wallPhase (movePhase (ledPhase gLow))).ball_dx)) :=
  ⟨rfl, rfl,
   breakout_bounce_axis gLow 4 0 rfl rfl (by decide) (by decide) (by decide)
     (by decide) (by decide)⟩

/-- C8 counterexample: in the concrete scenario gLow the ball hits the
bottom-row brick (4, 0) dead-center horizontally, but the score rises by
ROWS - 4 = 1, not by ROWS = 5 as the claim states. -/
theorem breakout_bottom_row_score_cex :
    (tick gLow).bricks 4 0 = false ∧ (tick gLow).led_flash = 6 ∧
    gLow.ball_x + gLow.ball_dx + 2 = cellX 0 + cellW 0 / 2 ∧
    (tick gLow).score ≠ gLow.score + 5 := by decide

/-- C8 amended: when the ball hits the bottom-row brick at column 0
dead-center horizontally, only that brick is destroyed, the score
increases by ROWS - row_index = 5 - 4 = 1, and the vertical velocity
component flips sign while the horizontal one is unchanged. -/
theorem breakout_bottom_row_scenario :
    (tick gLow).bricks 4 0 = false ∧
    (∀ r2, r2 < 5 → ∀ c2, c2 < 21 → ¬(r2 = 4 ∧ c2 = 0) → (tick gLow).bricks r2 c2 = true) ∧
    (tick gLow).score = gLow.score + 1 ∧
    (tick gLow).ball_dy = -gLow.ball_dy ∧
    (tick gLow).ball_dx = gLow.ball_dx ∧
    gLow.ball_x + gLow.ball_dx + 2 = cellX 0 + cellW 0 / 2 := by decide

@[simp] theorem snap_ball_x (g : Game) : (snap g).ball_x = g.ball_x := rfl

@[simp] theorem snap_ball_y (g : Game) : (snap g).ball_y = g.ball_y := rfl

@[simp] theorem snap_paddle_x (g : Game) : (snap g).paddle_x = g.paddle_x := rfl

@[simp] theorem snap_score (g : Game) : (snap g).score = g.score := rfl

@[simp] theorem snap_lives (g : Game) : (snap g).lives = g.lives := rfl

@[simp] theorem snap_bricks (g : Game) : (snap g).bricks = g.bricks := rfl

/-- C5 counterexample: a draw_frame call whose previous snapshot equals
the current state still issues draw operations (the unconditional ball
erase, paddle draw and ball draw), so the second identical call does not
produce an empty operation list. -/
theorem breakout_diff_second_call_cex : draw_frame new (snap new) ≠ [] := by decide

/-- C5 amended: when the previous snapshot equals the current state and
the ball sits above the HUD row, draw_frame issues no paddle erase, no
brick erase and no HUD redraw; it issues exactly the unconditional ball
erase, paddle draw and ball draw, all at the unchanged positions, so the
visible frame is left unchanged even though the operation list is not
empty. -/
theorem breakout_diff_identical (g : Game) (hb : g.ball_y + 4 ≤ 156) :
    draw_frame g (snap g) =
      [DrawOp.rect g.ball_x g.ball_y 4 4 GColor.black,
       DrawOp.rect g.paddle_x 146 40 6 GColor.white,
       DrawOp.rect g.ball_x g.ball_y 4 4 GColor.white] := by
  rw [draw_frame]
  simp only [snap_ball_x, snap_ball_y, snap_paddle_x, snap_score, snap_lives, snap_bricks]
  rw [if_neg (not_not_intro rfl)]
  rw [if_neg (by push_neg; exact ⟨by omega, rfl, rfl⟩)]
  have hfm : scanIdx.filterMap (fun p =>
      if g.bricks p.1 p.2 && !g.bricks p.1 p.2 then
        some (DrawOp.rect (eraseX p.2) (eraseY p.1) (eraseW p.2) (eraseH p.1) GColor.black)
      else none) = [] := by
    apply List.filterMap_eq_nil_iff.mpr
    intro p _
    simp
  rw [hfm]
  simp

/-- Witness for the amended C5 at the initial state. -/
theorem breakout_diff_identical_witness :
    new.ball_y + 4 ≤ 156 ∧
    draw_frame new (snap new) =
      [DrawOp.rect new.ball_x new.ball_y 4 4 GColor.black,
       DrawOp.rect new.paddle_x 146 40 6 GColor.white,
       DrawOp.rect new.ball_x new.ball_y 4 4 GColor.white] :=
  ⟨by decide, breakout_diff_identical new (by decide)⟩

end Breakout
